import Mathlib

/-!
Verification of the bridgescrap change-detection pipeline.

The Python sources embedded here are `storage.py` (snapshot store, identity
key, diff engine) and `validation.py` (normalizer `sanitize_assignment` and
`AssignmentValidator.validate_assignment`).  Records (`Dict[str, str]` in the
source) are modelled as insertion-ordered association lists of strings, with
Python dict semantics for lookup, membership and assignment.  Python string
operations (`strip`, `split`, `lower`, substring search, `<`) are modelled on
the character list underlying a `String`; case mapping is restricted to ASCII,
which covers all data the scraper handles.  `datetime.strptime` /
`strftime` and the fixed regular-expression patterns of the source are
embedded as executable matchers over character lists, faithful to CPython:
directives match the exact digit alternations of `_strptime.TimeRE`, a
whitespace run in a format matches any whitespace run in the input, parsing
must consume the whole input, and regex scanning is leftmost-match with
greedy backtracking including the word-boundary assertions.
-/

namespace Bridgescrap

/-! ## Python string primitives -/

/-- Unicode code points Python's `str` treats as whitespace
(`str.split`, `str.strip`). -/
def isSpNat (n : Nat) : Bool :=
  decide (n = 32 ∨ (9 ≤ n ∧ n ≤ 13) ∨ (28 ≤ n ∧ n ≤ 31) ∨ n = 133 ∨ n = 160 ∨
    n = 5760 ∨ (8192 ≤ n ∧ n ≤ 8202) ∨ n = 8232 ∨ n = 8233 ∨ n = 8239 ∨
    n = 8287 ∨ n = 12288)

def pyIsSpace (c : Char) : Bool := isSpNat c.toNat

def isDigitB (c : Char) : Bool := decide (48 ≤ c.toNat ∧ c.toNat ≤ 57)

def digitVal (c : Char) : Nat := c.toNat - 48

/-- ASCII lower-casing of one character (Python `str.lower` restricted to
the ASCII data this system processes). -/
def lowerChar (c : Char) : Char :=
  if 65 ≤ c.toNat ∧ c.toNat ≤ 90 then Char.ofNat (c.toNat + 32) else c

/-- Regex word character (`\w` over ASCII): letter, digit or underscore. -/
def isWordChar (c : Char) : Bool :=
  decide ((48 ≤ c.toNat ∧ c.toNat ≤ 57) ∨ (65 ≤ c.toNat ∧ c.toNat ≤ 90) ∨
    (97 ≤ c.toNat ∧ c.toNat ≤ 122) ∨ c.toNat = 95)

def trimL (l : List Char) : List Char := l.dropWhile pyIsSpace

def trimR (l : List Char) : List Char := (l.reverse.dropWhile pyIsSpace).reverse

/-- Python `str.strip()` on the underlying character list. -/
def stripL (l : List Char) : List Char := trimR (trimL l)

def pyStrip (s : String) : String := String.mk (stripL s.data)

/-- Python `str.lower()` (ASCII). -/
def pyLower (s : String) : String := String.mk (s.data.map lowerChar)

/-- Python `str.split()` with no argument: split on whitespace runs,
dropping empty pieces. -/
def splitWsAux : List Char → List Char → List (List Char)
  | [], acc => if acc.isEmpty then [] else [acc.reverse]
  | c :: rest, acc =>
    if pyIsSpace c then
      if acc.isEmpty then splitWsAux rest [] else acc.reverse :: splitWsAux rest []
    else splitWsAux rest (c :: acc)

def pySplitWs (s : String) : List String :=
  (splitWsAux s.data []).map String.mk

/-- `' '.join(value.split())` from `normalize_value` in `storage.py`. -/
def collapseWs (s : String) : String :=
  String.intercalate " " (pySplitWs s)

/-- Does `b` start with `a`? -/
def leadMatch : List Char → List Char → Bool
  | [], _ => true
  | _ :: _, [] => false
  | a :: as, b :: bs => a == b && leadMatch as bs

/-- Substring containment, Python's `needle in haystack`. -/
def isSubList : List Char → List Char → Bool
  | [], _ => true
  | _ :: _, [] => false
  | needle, c :: rest =>
    leadMatch needle (c :: rest) || isSubList needle rest

def hasSub (haystack needle : String) : Bool :=
  isSubList needle.data haystack.data

/-- Python string `<` (lexicographic on code points). -/
def strLtb : List Char → List Char → Bool
  | [], [] => false
  | [], _ :: _ => true
  | _ :: _, [] => false
  | a :: as, b :: bs =>
    if a.toNat < b.toNat then true
    else if a.toNat = b.toNat then strLtb as bs
    else false

def pyStrLt (a b : String) : Bool := strLtb a.data b.data

/-- All characters are ASCII digits and the string is non-empty
(regex `^[0-9]+$` after `strip`). -/
def allDigits (l : List Char) : Bool :=
  !l.isEmpty && l.all isDigitB

/-! ## Python `dict` on string keys, insertion-ordered -/

/-- A scraped record: `Dict[str, str]` as an insertion-ordered association
list. -/
abbrev Rec := List (String × String)

/-- `k in d`. -/
def dmem (d : Rec) (k : String) : Bool := d.any (fun kv => kv.1 == k)

/-- `d.get(k, dflt)`. -/
def dget (d : Rec) (k : String) (dflt : String) : String :=
  match d.find? (fun kv => kv.1 == k) with
  | some kv => kv.2
  | none => dflt

/-- `d.get(k)` as an `Option`. -/
def dlookup (d : Rec) (k : String) : Option String :=
  match d.find? (fun kv => kv.1 == k) with
  | some kv => some kv.2
  | none => none

/-- `d[k] = v`: overwrite in place when the key exists, else append. -/
def dset (d : Rec) (k : String) (v : String) : Rec :=
  match d with
  | [] => [(k, v)]
  | kv :: rest => if kv.1 == k then (k, v) :: rest else kv :: dset rest k v

/-! ## `datetime.strptime` / `strftime` for the source's fixed formats

Directive alternations are those of CPython `_strptime.TimeRE`
(for example `%d` is `3[01]|[12]\d|0[1-9]|[1-9]`); a whitespace run in the
format matches one-or-more whitespace characters; the whole input must be
consumed; the resulting fields must form a valid calendar date. -/

structure DT where
  year : Nat
  month : Nat
  day : Nat
  hour : Nat
  minute : Nat
  second : Nat
deriving DecidableEq, Repr

/-- Fields captured so far by the format matcher. -/
structure PF where
  fY : Option Nat
  fy : Option Nat
  fm : Option Nat
  fd : Option Nat
  fH : Option Nat
  fI : Option Nat
  fM : Option Nat
  fS : Option Nat
  fp : Option Bool
deriving DecidableEq

def pfEmpty : PF := ⟨none, none, none, none, none, none, none, none, none⟩

def setDir (c : Char) (p : PF) (v : Nat) : PF :=
  if c = 'Y' then ⟨some v, p.fy, p.fm, p.fd, p.fH, p.fI, p.fM, p.fS, p.fp⟩
  else if c = 'y' then ⟨p.fY, some v, p.fm, p.fd, p.fH, p.fI, p.fM, p.fS, p.fp⟩
  else if c = 'm' then ⟨p.fY, p.fy, some v, p.fd, p.fH, p.fI, p.fM, p.fS, p.fp⟩
  else if c = 'd' then ⟨p.fY, p.fy, p.fm, some v, p.fH, p.fI, p.fM, p.fS, p.fp⟩
  else if c = 'H' then ⟨p.fY, p.fy, p.fm, p.fd, some v, p.fI, p.fM, p.fS, p.fp⟩
  else if c = 'I' then ⟨p.fY, p.fy, p.fm, p.fd, p.fH, some v, p.fM, p.fS, p.fp⟩
  else if c = 'M' then ⟨p.fY, p.fy, p.fm, p.fd, p.fH, p.fI, some v, p.fS, p.fp⟩
  else if c = 'S' then ⟨p.fY, p.fy, p.fm, p.fd, p.fH, p.fI, p.fM, some v, p.fp⟩
  else p

def setFp (p : PF) (b : Bool) : PF :=
  ⟨p.fY, p.fy, p.fm, p.fd, p.fH, p.fI, p.fM, p.fS, some b⟩

def twoDigits? : List Char → Option (Nat × Nat × List Char)
  | a :: b :: rest =>
    if isDigitB a && isDigitB b then some (digitVal a, digitVal b, rest) else none
  | _ => none

def oneDigit? : List Char → Option (Nat × List Char)
  | a :: rest => if isDigitB a then some (digitVal a, rest) else none
  | _ => none

/-- Candidate matches of `%m` and `%I` (`1[0-2]|0[1-9]|[1-9]`), in regex
alternation order. -/
def candMI (s : List Char) : List (Nat × List Char) :=
  (match twoDigits? s with
   | some (a, b, rest) =>
     (if a = 1 ∧ b ≤ 2 then [(10 + b, rest)] else []) ++
     (if a = 0 ∧ 1 ≤ b then [(b, rest)] else [])
   | none => []) ++
  (match oneDigit? s with
   | some (a, rest) => if 1 ≤ a then [(a, rest)] else []
   | none => [])

/-- Candidate matches of `%d` (`3[01]|[12]\d|0[1-9]|[1-9]`). -/
def candD (s : List Char) : List (Nat × List Char) :=
  (match twoDigits? s with
   | some (a, b, rest) =>
     (if a = 3 ∧ b ≤ 1 then [(30 + b, rest)] else []) ++
     (if a = 1 ∨ a = 2 then [(10 * a + b, rest)] else []) ++
     (if a = 0 ∧ 1 ≤ b then [(b, rest)] else [])
   | none => []) ++
  (match oneDigit? s with
   | some (a, rest) => if 1 ≤ a then [(a, rest)] else []
   | none => [])

/-- Candidate matches of `%H` (`2[0-3]|[0-1]\d|\d`). -/
def candH (s : List Char) : List (Nat × List Char) :=
  (match twoDigits? s with
   | some (a, b, rest) =>
     (if a = 2 ∧ b ≤ 3 then [(20 + b, rest)] else []) ++
     (if a ≤ 1 then [(10 * a + b, rest)] else [])
   | none => []) ++
  (match oneDigit? s with
   | some (a, rest) => [(a, rest)]
   | none => [])

/-- Candidate matches of `%M` (`[0-5]\d|\d`). -/
def candMin (s : List Char) : List (Nat × List Char) :=
  (match twoDigits? s with
   | some (a, b, rest) => if a ≤ 5 then [(10 * a + b, rest)] else []
   | none => []) ++
  (match oneDigit? s with
   | some (a, rest) => [(a, rest)]
   | none => [])

/-- Candidate matches of `%S` (`6[0-1]|[0-5]\d|\d`). -/
def candS (s : List Char) : List (Nat × List Char) :=
  (match twoDigits? s with
   | some (a, b, rest) =>
     (if a = 6 ∧ b ≤ 1 then [(60 + b, rest)] else []) ++
     (if a ≤ 5 then [(10 * a + b, rest)] else [])
   | none => []) ++
  (match oneDigit? s with
   | some (a, rest) => [(a, rest)]
   | none => [])

/-- Candidate match of `%Y` (`\d\d\d\d`). -/
def candY (s : List Char) : List (Nat × List Char) :=
  match s with
  | a :: b :: c :: d :: rest =>
    if isDigitB a && isDigitB b && isDigitB c && isDigitB d then
      [(1000 * digitVal a + 100 * digitVal b + 10 * digitVal c + digitVal d, rest)]
    else []
  | _ => []

/-- Candidate match of `%y` (`\d\d`). -/
def candY2 (s : List Char) : List (Nat × List Char) :=
  match twoDigits? s with
  | some (a, b, rest) => [(10 * a + b, rest)]
  | none => []

def dirCands (c : Char) (s : List Char) : List (Nat × List Char) :=
  if c = 'Y' then candY s
  else if c = 'y' then candY2 s
  else if c = 'm' ∨ c = 'I' then candMI s
  else if c = 'd' then candD s
  else if c = 'H' then candH s
  else if c = 'M' then candMin s
  else if c = 'S' then candS s
  else []

/-- `%p`: `AM` or `PM`, case-insensitively; `true` means PM. -/
def candP (s : List Char) : List (Bool × List Char) :=
  match s with
  | a :: m :: rest =>
    if lowerChar m = 'm' then
      if lowerChar a = 'a' then [(false, rest)]
      else if lowerChar a = 'p' then [(true, rest)]
      else []
    else []
  | _ => []

/-- Tokenized `strptime` format: `%`-directive, whitespace, or literal.
The embedded formats never contain adjacent whitespace, so run-collapsing
in the format is not needed. -/
inductive FTok where
  | dir : Char → FTok
  | ws : FTok
  | lit : Char → FTok
deriving DecidableEq

def fmtToks : List Char → List FTok
  | [] => []
  | '%' :: c :: rest => FTok.dir c :: fmtToks rest
  | c :: rest => (if pyIsSpace c then FTok.ws else FTok.lit c) :: fmtToks rest

/-- Format matcher with backtracking over directive alternatives; the whole
input must be consumed (`strptime` raises on unconverted data). -/
def matchToksF : Nat → List FTok → List Char → PF → Option PF
  | 0, _, _, _ => none
  | _ + 1, [], s, pf => if s.isEmpty then some pf else none
  | fuel + 1, FTok.lit c :: ts, s, pf =>
    match s with
    | c' :: rest => if c' = c then matchToksF fuel ts rest pf else none
    | [] => none
  | fuel + 1, FTok.ws :: ts, s, pf =>
    let rest := s.dropWhile pyIsSpace
    if rest.length = s.length then none else matchToksF fuel ts rest pf
  | fuel + 1, FTok.dir c :: ts, s, pf =>
    if c = 'p' then
      (candP s).findSome? (fun br => matchToksF fuel ts br.2 (setFp pf br.1))
    else
      (dirCands c s).findSome? (fun vr => matchToksF fuel ts vr.2 (setDir c pf vr.1))

def leapYear (y : Nat) : Bool := decide (y % 4 = 0 ∧ (y % 100 ≠ 0 ∨ y % 400 = 0))

def daysInMonth (y m : Nat) : Nat :=
  if m = 2 then (if leapYear y then 29 else 28)
  else if m = 4 ∨ m = 6 ∨ m = 9 ∨ m = 11 then 30
  else 31

/-- Assemble a `datetime` from matched fields, with `strptime` defaults
(year 1900, month 1, day 1, midnight) and `datetime` range validation. -/
def buildDT (pf : PF) : Option DT :=
  let year := match pf.fY with
    | some v => v
    | none => match pf.fy with
      | some v => if v ≤ 68 then 2000 + v else 1900 + v
      | none => 1900
  let month := pf.fm.getD 1
  let day := pf.fd.getD 1
  let hour := match pf.fH with
    | some v => v
    | none => match pf.fI, pf.fp with
      | some h12, some true => if h12 = 12 then 12 else h12 + 12
      | some h12, some false => if h12 = 12 then 0 else h12
      | some h12, none => h12
      | none, _ => 0
  let minute := pf.fM.getD 0
  let second := pf.fS.getD 0
  if 1 ≤ year ∧ year ≤ 9999 ∧ 1 ≤ month ∧ month ≤ 12 ∧ 1 ≤ day ∧
      day ≤ daysInMonth year month ∧ hour ≤ 23 ∧ minute ≤ 59 ∧ second ≤ 59 then
    some ⟨year, month, day, hour, minute, second⟩
  else none

def pyStrptime (fmt s : String) : Option DT :=
  let ts := fmtToks fmt.data
  (matchToksF (ts.length + 1) ts s.data pfEmpty).bind buildDT

def natStr (n : Nat) : String := toString n

def pad2 (n : Nat) : String := if n < 10 then "0" ++ natStr n else natStr n

def pad4 (n : Nat) : String :=
  if n < 10 then "000" ++ natStr n
  else if n < 100 then "00" ++ natStr n
  else if n < 1000 then "0" ++ natStr n
  else natStr n

/-- `dt.strftime('%m/%d/%Y %I:%M %p')`, the single canonical output format. -/
def fmtCanonical (dt : DT) : String :=
  let h12 := if dt.hour % 12 = 0 then 12 else dt.hour % 12
  let ap := if dt.hour < 12 then "AM" else "PM"
  pad2 dt.month ++ "/" ++ pad2 dt.day ++ "/" ++ pad4 dt.year ++ " " ++
    pad2 h12 ++ ":" ++ pad2 dt.minute ++ " " ++ ap

/-! ## The source's regular-expression matchers

Tokens of the fixed date/time extraction patterns; matching is greedy with
backtracking, scanning start positions left to right (leftmost match), with
`\b` word-boundary assertions where the pattern has them. -/

inductive RTok where
  | digits : Nat → Nat → RTok
  | litc : Char → RTok
  | wsPlus : RTok
  | wsStar : RTok
  | ampmOpt : Bool → RTok
  | monName : RTok
  | wordB : RTok
deriving DecidableEq

def monthNames : List (List Char) :=
  [['j','a','n'], ['f','e','b'], ['m','a','r'], ['a','p','r'], ['m','a','y'],
   ['j','u','n'], ['j','u','l'], ['a','u','g'], ['s','e','p'], ['o','c','t'],
   ['n','o','v'], ['d','e','c']]

def isAsciiLetter (c : Char) : Bool :=
  decide ((65 ≤ c.toNat ∧ c.toNat ≤ 90) ∨ (97 ≤ c.toNat ∧ c.toNat ≤ 122))

/-- Word-boundary test between a previous character and the next one. -/
def atBoundary (prev : Option Char) (next : Option Char) : Bool :=
  let pw := match prev with
    | some c => isWordChar c
    | none => false
  let nw := match next with
    | some c => isWordChar c
    | none => false
  pw != nw

def lastOr (l : List Char) (prev : Option Char) : Option Char :=
  match l.getLast? with
  | some c => some c
  | none => prev

/-- Descending candidate lengths `hi, hi-1, ..., lo` capped at `cap`. -/
def descLens (lo hi cap : Nat) : List Nat :=
  let top := min hi cap
  if top < lo then []
  else (List.range (top + 1 - lo)).map (fun i => top - i)

/-- Regex token matcher: returns the consumed characters (the capture). -/
def matchRT : Nat → List RTok → Option Char → List Char → Option (List Char)
  | 0, _, _, _ => none
  | _ + 1, [], _, _ => some []
  | fuel + 1, RTok.litc c :: ts, _, s =>
    match s with
    | c' :: rest =>
      if c' = c then (matchRT fuel ts (some c') rest).map (fun t => c' :: t)
      else none
    | [] => none
  | fuel + 1, RTok.digits lo hi :: ts, prev, s =>
    let run := (s.takeWhile isDigitB).length
    (descLens lo hi run).findSome? (fun k =>
      let con := s.take k
      (matchRT fuel ts (lastOr con prev) (s.drop k)).map (fun t => con ++ t))
  | fuel + 1, RTok.wsPlus :: ts, prev, s =>
    let run := (s.takeWhile pyIsSpace).length
    (descLens 1 run run).findSome? (fun k =>
      let con := s.take k
      (matchRT fuel ts (lastOr con prev) (s.drop k)).map (fun t => con ++ t))
  | fuel + 1, RTok.wsStar :: ts, prev, s =>
    let run := (s.takeWhile pyIsSpace).length
    (descLens 0 run run).findSome? (fun k =>
      let con := s.take k
      (matchRT fuel ts (lastOr con prev) (s.drop k)).map (fun t => con ++ t))
  | fuel + 1, RTok.ampmOpt ci :: ts, prev, s =>
    let tryTwo : Char → Option (List Char) :=
      fun a => match s with
        | x :: y :: rest =>
          let okA := if ci then lowerChar x = lowerChar a else x = a
          let okM := if ci then lowerChar y = 'm' else y = 'M'
          if okA ∧ okM then
            (matchRT fuel ts (some y) rest).map (fun t => x :: y :: t)
          else none
        | _ => none
    match tryTwo 'A' with
    | some r => some r
    | none => match tryTwo 'P' with
      | some r => some r
      | none => matchRT fuel ts prev s
  | fuel + 1, RTok.monName :: ts, _, s =>
    monthNames.findSome? (fun nm =>
      match s with
      | x :: y :: z :: rest =>
        if lowerChar x = nm.get! 0 ∧ lowerChar y = nm.get! 1 ∧ lowerChar z = nm.get! 2 then
          let run := (rest.takeWhile isAsciiLetter).length
          (descLens 0 run run).findSome? (fun k =>
            let con := rest.take k
            (matchRT fuel ts (lastOr con (some z)) (rest.drop k)).map
              (fun t => x :: y :: z :: con ++ t))
        else none
      | _ => none)
  | fuel + 1, RTok.wordB :: ts, prev, s =>
    if atBoundary prev s.head? then matchRT fuel ts prev s else none

/-- Scan start positions left to right; first position with a match wins. -/
def scanRT (toks : List RTok) : Option Char → List Char → Option (List Char)
  | prev, s =>
    match matchRT (toks.length + 1) toks prev s with
    | some cap => some cap
    | none =>
      match s with
      | [] => none
      | c :: rest => scanRT toks (some c) rest

/-- Pattern 1 of `extract_date_time`:
`\b(\d{1,2}/\d{1,2}/\d{2,4}\s+\d{1,2}:\d{2}\s*(?:AM|PM)?)\b`, IGNORECASE. -/
def extractPat1 : List RTok :=
  [RTok.wordB, RTok.digits 1 2, RTok.litc '/', RTok.digits 1 2, RTok.litc '/',
   RTok.digits 2 4, RTok.wsPlus, RTok.digits 1 2, RTok.litc ':', RTok.digits 2 2,
   RTok.wsStar, RTok.ampmOpt true, RTok.wordB]

/-- Pattern 2: `\b(\d{4}-\d{2}-\d{2}\s+\d{2}:\d{2})\b`. -/
def extractPat2 : List RTok :=
  [RTok.wordB, RTok.digits 4 4, RTok.litc '-', RTok.digits 2 2, RTok.litc '-',
   RTok.digits 2 2, RTok.wsPlus, RTok.digits 2 2, RTok.litc ':', RTok.digits 2 2,
   RTok.wordB]

/-- Pattern 3: `\b(\d{1,2}-\d{1,2}-\d{2,4}\s+\d{1,2}:\d{2}\s*(?:AM|PM)?)\b`. -/
def extractPat3 : List RTok :=
  [RTok.wordB, RTok.digits 1 2, RTok.litc '-', RTok.digits 1 2, RTok.litc '-',
   RTok.digits 2 4, RTok.wsPlus, RTok.digits 1 2, RTok.litc ':', RTok.digits 2 2,
   RTok.wsStar, RTok.ampmOpt true, RTok.wordB]

/-- Pattern 4:
`\b(\d{1,2}\s+(?:Jan|...|Dec)[a-z]*\s+\d{2,4}\s+\d{1,2}:\d{2}\s*(?:AM|PM)?)\b`. -/
def extractPat4 : List RTok :=
  [RTok.wordB, RTok.digits 1 2, RTok.wsPlus, RTok.monName, RTok.wsPlus,
   RTok.digits 2 4, RTok.wsPlus, RTok.digits 1 2, RTok.litc ':', RTok.digits 2 2,
   RTok.wsStar, RTok.ampmOpt true, RTok.wordB]

/-- `extract_date_time` from `validation.py`: first pattern with a match
wins; within a pattern, the leftmost match. -/
def extractDateTime (s : String) : Option String :=
  match scanRT extractPat1 none s.data with
  | some cap => some (String.mk cap)
  | none =>
    match scanRT extractPat2 none s.data with
    | some cap => some (String.mk cap)
    | none =>
      match scanRT extractPat3 none s.data with
      | some cap => some (String.mk cap)
      | none =>
        match scanRT extractPat4 none s.data with
        | some cap => some (String.mk cap)
        | none => none

/-- Branch A of the `validate_assignment` extraction regex
(`\d{1,2}/\d{1,2}/\d{2,4}\s+\d{1,2}:\d{2}\s*(?:AM|PM)?`, case-sensitive,
no word boundaries). -/
def validatePatA : List RTok :=
  [RTok.digits 1 2, RTok.litc '/', RTok.digits 1 2, RTok.litc '/',
   RTok.digits 2 4, RTok.wsPlus, RTok.digits 1 2, RTok.litc ':', RTok.digits 2 2,
   RTok.wsStar, RTok.ampmOpt false]

/-- Branch B: `\d{4}-\d{2}-\d{2}\s+\d{2}:\d{2}`. -/
def validatePatB : List RTok :=
  [RTok.digits 4 4, RTok.litc '-', RTok.digits 2 2, RTok.litc '-',
   RTok.digits 2 2, RTok.wsPlus, RTok.digits 2 2, RTok.litc ':', RTok.digits 2 2]

/-- The two-branch alternation scanned left to right, branch A before B at
each position. -/
def scanValidatePat : Option Char → List Char → Option (List Char)
  | pc, s =>
    match matchRT (validatePatA.length + 1) validatePatA pc s with
    | some cap => some cap
    | none =>
      match matchRT (validatePatB.length + 1) validatePatB pc s with
      | some cap => some cap
      | none =>
        match s with
        | [] => none
        | c :: rest => scanValidatePat (some c) rest

def validateExtract (s : String) : Option String :=
  (scanValidatePat none s.data).map String.mk

/-! ## `storage.py`: comparison-time normalization, identity key, diff -/

/-- Fields where case matters (`case_sensitive_fields` in
`compare_assignments`). -/
def caseSensitiveCmp : List String := ["info", "comments"]

/-- `normalize_value` from `compare_assignments`: collapse whitespace runs
to single spaces, strip ends, and lower-case unless case is preserved.
(Values are strings throughout this development, so the `str(value)`
fallback for non-strings does not arise.) -/
def normalizeValue (value : String) (preserveCase : Bool) : String :=
  let v := collapseWs value
  if preserveCase then v else pyLower v

/-- The identity key `get_assignment_key` actually computed by
`compare_assignments` in `storage.py`: a 6-tuple over all main fields,
including the description fields `info` and `comments` (case-preserved). -/
structure AKey where
  customer : String
  dateTime : String
  language : String
  serviceType : String
  info : String
  comments : String
deriving DecidableEq, Repr

def getAssignmentKey (a : Rec) : AKey :=
  ⟨normalizeValue (dget a "customer" "") false,
   normalizeValue (dget a "date_time" "") false,
   normalizeValue (dget a "language" "") false,
   normalizeValue (dget a "service_type" "") false,
   normalizeValue (dget a "info" "") true,
   normalizeValue (dget a "comments" "") true⟩

/-- The identity key the specification describes: the 4-tuple of normalized
`(customer, date_time, language, service_type)` values only.  Modelled from
the spec for comparison with `getAssignmentKey`. -/
structure SpecKey where
  customer : String
  dateTime : String
  language : String
  serviceType : String
deriving DecidableEq, Repr

def specIdentityKey (a : Rec) : SpecKey :=
  ⟨normalizeValue (dget a "customer" "") false,
   normalizeValue (dget a "date_time" "") false,
   normalizeValue (dget a "language" "") false,
   normalizeValue (dget a "service_type" "") false⟩

/-- `clean_assignment`: lower-case keys, drop timestamp-style fields, map
blank values to `'N/A'`, otherwise normalize with the per-field case
policy. -/
def ignoreFields : List String := ["timestamp", "last_updated", "created_at", "updated_at"]

def cleanAssignment (a : Rec) : Rec :=
  a.foldl (fun cleaned kv =>
    let k := pyLower kv.1
    if ignoreFields.contains k then cleaned
    else if pyStrip kv.2 = "" then dset cleaned k "N/A"
    else dset cleaned k (normalizeValue kv.2 (caseSensitiveCmp.contains k))) []

/-- Association list keyed by `AKey`, mirroring the Python dict built by
`{get_assignment_key(a): (a, orig_a) for ...}` (assignment on an existing
key overwrites in place, i.e. last wins). -/
def kset (m : List (AKey × Rec × Rec)) (k : AKey) (v : Rec × Rec) :
    List (AKey × Rec × Rec) :=
  match m with
  | [] => [(k, v)]
  | kv :: rest => if kv.1 = k then (k, v) :: rest else kv :: kset rest k v

def buildKeyMap (pairs : List (Rec × Rec)) : List (AKey × Rec × Rec) :=
  pairs.foldl (fun m p => kset m (getAssignmentKey p.1) p) []

def keyMem (m : List (AKey × Rec × Rec)) (k : AKey) : Bool :=
  m.any (fun kv => kv.1 = k)

/-- The `new_assignments_list` computed by `compare_assignments`
(lines 207-227 of `storage.py`): clean both sides, key them, and collect
the original records whose keys are absent from the stored side.  The
human-readable change log built alongside does not feed this result and is
not modelled; iteration order over the key set is taken as insertion
order. -/
def compareNewAssignments (current new : List Rec) : List Rec :=
  let currentKeys := buildKeyMap ((current.map cleanAssignment).zip current)
  let newKeys := buildKeyMap ((new.map cleanAssignment).zip new)
  (newKeys.filterMap (fun kv =>
    if keyMem currentKeys kv.1 then none else some kv.2.2))

/-! ## `storage.py`: snapshot store -/

structure HistEntry where
  timestamp : Option String
  assignments : List Rec
deriving DecidableEq

structure Storage where
  lastUpdated : Option String
  assignments : List Rec
  history : List HistEntry
deriving DecidableEq

/-- The default empty snapshot returned by `_read_storage` when the file is
missing or unreadable/unparseable. -/
def defaultStorage : Storage := ⟨none, [], []⟩

/-- `_read_storage`: the parse outcome is `some` parsed data or `none` for a
missing file or any read/parse failure; both failure paths return the
default (the `try/except` never lets an exception reach the caller). -/
def readStorage (parsed : Option Storage) : Storage :=
  match parsed with
  | some d => d
  | none => defaultStorage

/-- `_clean_old_history`: keep entries whose `timestamp` is truthy and
compares strictly greater (Python string `>` on ISO timestamps) than the
cutoff `(datetime.now() - timedelta(days=7)).isoformat()`, supplied here as
the parameter `sevenDaysAgo`. -/
def cleanOldHistory (sevenDaysAgo : String) (history : List HistEntry) :
    List HistEntry :=
  history.filter (fun e =>
    match e.timestamp with
    | some t => t ≠ "" && pyStrLt sevenDaysAgo t
    | none => false)

/-- `save_assignments` on already-read storage `st`: push the previous
current set (with its old `last_updated` stamp) onto history when
non-empty, prune old history, then replace the current set.  `now` stands
for `datetime.now().isoformat()` and `sevenDaysAgo` for the derived cutoff;
the returned value is the data handed to `_write_storage`. -/
def saveAssignments (st : Storage) (now sevenDaysAgo : String)
    (assignments : List Rec) : Storage :=
  let history :=
    if st.assignments.isEmpty then st.history
    else st.history ++ [⟨st.lastUpdated, st.assignments⟩]
  let history := cleanOldHistory sevenDaysAgo history
  ⟨some now, assignments, history⟩

/-! ## `validation.py`: `sanitize_assignment` (the Normalizer) -/

def lowercaseFieldsSan : List String := ["customer", "service_type"]

def caseSensitiveFieldsSan : List String := ["info", "comments", "language"]

def emptyValues : List String :=
  ["n/a", "none", "null", "-", "unknown", "not specified", "not available"]

def serviceTypeMapping : List (String × String) :=
  [("in person", "in-person interpretation"),
   ("in-person", "in-person interpretation"),
   ("video", "video interpretation"),
   ("phone", "phone interpretation"),
   ("document", "document translation")]

/-- The `service_type` block of `sanitize_assignment`: strip+lower, then the
first matching substring rule wins, otherwise the value passes through. -/
def serviceNormalize (v : String) : String :=
  let v := pyLower (pyStrip v)
  match serviceTypeMapping.find? (fun p => hasSub v p.1) with
  | some p => p.2
  | none => v

/-- The emptiness test of `sanitize_assignment`: blank, or an empty-alias
after case folding (`not value or value.lower() in empty_values`). -/
def isEmptyAlias (x : String) : Bool :=
  decide (x = "") || emptyValues.contains (pyLower x)

/-- The date/time recovery inside the empty-value branch of
`sanitize_assignment`: the value at this point is `'N/A'`; extraction is
attempted from the original record's `info` then `comments`, and a
successful extraction is reparsed against the fixed format list and
canonicalized when some format matches. -/
def sanitizeFormats : List String :=
  ["%m/%d/%Y %I:%M %p", "%Y-%m-%d %H:%M:%S", "%m/%d/%Y\n%I:%M %p",
   "%m/%d/%Y %H:%M", "%Y-%m-%d %I:%M %p", "%m/%d/%y %I:%M %p",
   "%d/%m/%Y %H:%M", "%Y/%m/%d %H:%M"]

def tryFormats (v : String) : String :=
  match sanitizeFormats.findSome? (fun fmt => pyStrptime fmt v) with
  | some dt => fmtCanonical dt
  | none => v

def extractFromFields (a : Rec) : Option String :=
  match (if dmem a "info" then extractDateTime (dget a "info" "") else none) with
  | some e => some e
  | none =>
    if dmem a "comments" then extractDateTime (dget a "comments" "") else none

def dateTimeRecover (a : Rec) : String :=
  let v := "N/A"
  let v :=
    if isEmptyAlias v then
      match extractFromFields a with
      | some e => e
      | none => v
    else v
  if !isEmptyAlias v then tryFormats v else v

/-- The empty-value branch: the stripped value was blank or an empty alias;
it becomes `'N/A'`, and only for `date_time` the recovery/reparse block
runs (the block is nested inside this branch in the source). -/
def emptyBranch (a : Rec) (k : String) : String :=
  if k = "date_time" then dateTimeRecover a else "N/A"

/-- Processing of one value of `sanitize_assignment` for key `k`: strip;
empty-alias handling (with the nested `date_time` block); per-field case
policy; `service_type` vocabulary mapping; `language` strip. -/
def sanitizeValue (a : Rec) (k v : String) : String :=
  let v1 := pyStrip v
  let v4 := if isEmptyAlias v1 then emptyBranch a k else v1
  let v5 :=
    if lowercaseFieldsSan.contains k then pyLower v4
    else if caseSensitiveFieldsSan.contains k then v4
    else pyLower v4
  let v6 := if k = "service_type" then serviceNormalize v5 else v5
  if k = "language" then pyStrip v6 else v6

/-- Processing of one `(key, value)` item: compute the sanitized value and
drop `header`/`timestamp` keys. -/
def procItem (a : Rec) (kv : String × String) : Option (String × String) :=
  if kv.1 = "header" || kv.1 = "timestamp" then none
  else some (kv.1, sanitizeValue a kv.1 kv.2)

/-- `sanitize_assignment` from `validation.py` (string-valued records; the
source passes non-string values through untouched). -/
def sanitizeAssignment (a : Rec) : Rec :=
  a.filterMap (procItem a)

/-! ## `validation.py`: `AssignmentValidator.validate_assignment`

Records carry string values (the source annotation is `Dict[str, str]`), so
the `isinstance(value, str)` type check never fires and only the presence
half of the required-field loop can produce findings. -/

structure VErr where
  field : String
  error : String
  value : String
deriving DecidableEq, Repr

def requiredFields : List String :=
  ["customer", "date_time", "language", "service_type", "info", "comments"]

def validServiceTypes : List String :=
  ["in-person interpretation", "video interpretation", "phone interpretation",
   "document translation", "in person interpretation", "in-person", "video",
   "phone", "document"]

def commonLanguages : List String :=
  ["Spanish", "French", "Portuguese", "Mandarin", "Cantonese", "Vietnamese",
   "Russian", "Arabic", "Korean", "Japanese"]

/-- Presence check over the fixed required-field set. -/
def requiredFindings (a : Rec) : List VErr :=
  requiredFields.filterMap (fun f =>
    if dmem a f then none
    else some ⟨f, "Missing required field", "N/A"⟩)

/-- One row of the Levenshtein dynamic program in `_similar_strings`:
`distances_` extended along `s1` given the previous row. -/
def levRow : List Char → Char → List Nat → Nat → List Nat
  | [], _, _, _ => []
  | c1 :: as, c2, d0 :: d1 :: ds, last =>
    let v := if c1 = c2 then d0 else 1 + min d0 (min d1 last)
    v :: levRow as c2 (d1 :: ds) v
  | _ :: _, _, _, _ => []

def levAux : List Char → List Char → List Nat → Nat → List Nat
  | _, [], distances, _ => distances
  | a, c2 :: bs, distances, i2 =>
    let start := i2 + 1
    levAux a bs (start :: levRow a c2 distances start) (i2 + 1)

/-- `_similar_strings`: case-folded equality, else Levenshtein distance at
most 2 (shorter string first, as in the source). -/
def similarStrings (s1 s2 : String) : Bool :=
  let l1 := pyLower s1
  let l2 := pyLower s2
  if l1 = l2 then true
  else
    let p := if l2.data.length < l1.data.length then (l2, l1) else (l1, l2)
    let a := p.1.data
    let b := p.2.data
    let distances := levAux a b (List.range (a.length + 1)) 0
    match distances.getLast? with
    | some d => d ≤ 2
    | none => true

/-- `_is_valid_customer_name`: the value is lowered and stripped, then
checked against the fixed anti-patterns (`re.match` semantics after
stripping: blank, digits-only, starts with `test` with no interior
newline after it, exactly `unknown`, exactly `na`/`n/a`). -/
def isValidCustomerName (name : String) : Bool :=
  let n := pyStrip (pyLower name)
  let startsTest :=
    leadMatch "test".data n.data &&
      !(n.data.drop 4).any (fun c => c = Char.ofNat 10)
  !(n = "" || allDigits n.data || startsTest || n = "unknown" ||
    n = "na" || n = "n/a")

def unknownServiceMsg : String :=
  "Unknown service type. Valid types: In-person Interpretation, " ++
    "Video Interpretation, Phone Interpretation, Document Translation"

/-- The substring-based normalization of `service_type` inside
`validate_assignment`. -/
def normalizeServiceType (st : String) : String :=
  if hasSub st "in person" || hasSub st "in-person" then
    "in-person interpretation"
  else if hasSub st "video" then "video interpretation"
  else if hasSub st "phone" then "phone interpretation"
  else if hasSub st "document" then "document translation"
  else st

/-- The `service_type` validation step: substring-normalize, check against
the allow-list; a known value is written back into the record. -/
def serviceStep (a : Rec) : List VErr × Rec :=
  if dmem a "service_type" then
    let st := pyStrip (pyLower (dget a "service_type" ""))
    let nt := normalizeServiceType st
    if validServiceTypes.contains nt then ([], dset a "service_type" nt)
    else ([⟨"service_type", unknownServiceMsg, st⟩], a)
  else ([], a)

/-- Empty/whitespace-only value check over the record's items. -/
def emptyFindings (a : Rec) : List VErr :=
  a.filterMap (fun kv =>
    if pyStrip kv.2 = "" then
      some ⟨kv.1, "Empty or whitespace-only value", kv.2⟩
    else none)

def joinComma : List String → String
  | [] => ""
  | [s] => s
  | s :: rest => s ++ ", " ++ joinComma rest

/-- Language typo check: only near-misses of the known-language set are
flagged. -/
def languageFindings (a : Rec) : List VErr :=
  if dmem a "language" then
    let language := dget a "language" ""
    if commonLanguages.contains language then []
    else
      let close := commonLanguages.filter (fun l => similarStrings language l)
      if close.isEmpty then []
      else [⟨"language",
            "Possible typo. Did you mean: " ++ joinComma close ++ "?",
            language⟩]
  else []

/-- Customer name format check. -/
def customerFindings (a : Rec) : List VErr :=
  if dmem a "customer" then
    let customer := dget a "customer" ""
    if isValidCustomerName customer then []
    else [⟨"customer", "Invalid customer name format", customer⟩]
  else []

def validateFormats : List String :=
  ["%m/%d/%Y %I:%M %p", "%Y-%m-%d %H:%M:%S", "%m/%d/%Y\n%I:%M %p"]

def invalidDateMsg : String :=
  "Invalid date format: Invalid date format. Expected MM/DD/YYYY HH:MM AM/PM"

/-- The extraction loop of the date block: first of `info`, `comments`
whose text matches the inline pattern. -/
def validateExtractFromFields (a : Rec) : Option String :=
  match (if dmem a "info" then validateExtract (dget a "info" "") else none) with
  | some e => some e
  | none =>
    if dmem a "comments" then validateExtract (dget a "comments" "") else none

/-- `validate_assignment`.  Returns the findings together with the final
state of the (mutated) record.  When `date_time` is present the whole date
block is skipped (`date_str` is read but never used); when it is absent and
extraction fails the function returns early with only the findings
collected so far. -/
def validateAssignment (a : Rec) : List VErr × Rec :=
  let e1 := requiredFindings a
  if dmem a "date_time" then
    let sr := serviceStep a
    (e1 ++ sr.1 ++ emptyFindings sr.2 ++ languageFindings sr.2 ++
      customerFindings sr.2, sr.2)
  else
    match validateExtractFromFields a with
    | none =>
      (e1 ++ [⟨"date_time",
        "Missing required field and could not extract from other fields",
        "N/A"⟩], a)
    | some ds =>
      let a2 := dset a "date_time" ds
      let res : List VErr × Rec :=
        match validateFormats.findSome? (fun fmt => pyStrptime fmt ds) with
        | some dt => ([], dset a2 "date_time" (fmtCanonical dt))
        | none => ([⟨"date_time", invalidDateMsg, ds⟩], a2)
      let sr := serviceStep res.2
      (e1 ++ res.1 ++ sr.1 ++ emptyFindings sr.2 ++ languageFindings sr.2 ++
        customerFindings sr.2, sr.2)

/-- The specification's reading of the validator: every check's findings
are reported, independently and without short-circuit.  Modelled from the
spec for comparison with `validateAssignment`. -/
def independentFindings (a : Rec) : List VErr :=
  let sr := serviceStep a
  requiredFindings a ++ sr.1 ++ emptyFindings sr.2 ++ languageFindings sr.2 ++
    customerFindings sr.2

/-! ## Character and string lemmas -/

theorem char_toNat_ofNat_valid (n : Nat) (h : n < 55296) :
    (Char.ofNat n).toNat = n := by
  unfold Char.ofNat
  rw [dif_pos (Or.inl h)]
  rfl

theorem lowerChar_toNat_of_upper {c : Char} (h : 65 ≤ c.toNat ∧ c.toNat ≤ 90) :
    (lowerChar c).toNat = c.toNat + 32 := by
  unfold lowerChar
  rw [if_pos h]
  exact char_toNat_ofNat_valid _ (by omega)

theorem lowerChar_of_not_upper {c : Char} (h : ¬(65 ≤ c.toNat ∧ c.toNat ≤ 90)) :
    lowerChar c = c := by
  unfold lowerChar
  rw [if_neg h]

theorem lowerChar_lowerChar (c : Char) : lowerChar (lowerChar c) = lowerChar c := by
  by_cases h : 65 ≤ c.toNat ∧ c.toNat ≤ 90
  · have ht := lowerChar_toNat_of_upper h
    apply lowerChar_of_not_upper
    omega
  · rw [lowerChar_of_not_upper h, lowerChar_of_not_upper h]

theorem isSpNat_false_of_alpha {n : Nat} (h1 : 65 ≤ n) (h2 : n ≤ 122) :
    isSpNat n = false := by
  unfold isSpNat
  rw [decide_eq_false]
  intro contra
  omega

theorem pyIsSpace_lowerChar (c : Char) : pyIsSpace (lowerChar c) = pyIsSpace c := by
  by_cases h : 65 ≤ c.toNat ∧ c.toNat ≤ 90
  · have ht := lowerChar_toNat_of_upper h
    unfold pyIsSpace
    rw [ht, isSpNat_false_of_alpha (by omega) (by omega),
      isSpNat_false_of_alpha (by omega) (by omega)]
  · rw [lowerChar_of_not_upper h]

theorem dropWhile_dropWhile (p : Char → Bool) (l : List Char) :
    (l.dropWhile p).dropWhile p = l.dropWhile p := by
  induction l with
  | nil => rfl
  | cons c l ih =>
    by_cases h : p c
    · rw [List.dropWhile_cons_of_pos h, ih]
    · rw [List.dropWhile_cons_of_neg h, List.dropWhile_cons_of_neg h]

theorem trimL_trimL (l : List Char) : trimL (trimL l) = trimL l :=
  dropWhile_dropWhile pyIsSpace l

theorem trimR_trimR (l : List Char) : trimR (trimR l) = trimR l := by
  unfold trimR
  rw [List.reverse_reverse, dropWhile_dropWhile]

/-- After a left trim the head, if any, is not whitespace. -/
theorem trimL_head (l : List Char) :
    trimL l = [] ∨ ∃ c t, trimL l = c :: t ∧ pyIsSpace c = false := by
  unfold trimL
  have h := List.head?_dropWhile_not pyIsSpace l
  cases he : (l.dropWhile pyIsSpace) with
  | nil => exact Or.inl rfl
  | cons c t =>
    rw [he] at h
    exact Or.inr ⟨c, t, rfl, by simpa using h⟩

/-- A right trim of a list with a non-whitespace head is either empty or
keeps that head. -/
theorem trimR_of_head {c : Char} (t : List Char) (hc : pyIsSpace c = false) :
    trimR (c :: t) = [] ∨ ∃ u, trimR (c :: t) = c :: u := by
  unfold trimR
  rw [List.reverse_cons, List.dropWhile_append]
  by_cases he : (t.reverse.dropWhile pyIsSpace).isEmpty
  · rw [if_pos he]
    rw [List.dropWhile_cons_of_neg (by simp [hc])]
    exact Or.inr ⟨[], by simp⟩
  · rw [if_neg he]
    exact Or.inr ⟨(t.reverse.dropWhile pyIsSpace).reverse, by simp⟩

theorem trimL_of_head {c : Char} (t : List Char) (hc : pyIsSpace c = false) :
    trimL (c :: t) = c :: t := by
  unfold trimL
  rw [List.dropWhile_cons_of_neg (by simp [hc])]

theorem stripL_stripL (l : List Char) : stripL (stripL l) = stripL l := by
  unfold stripL
  rcases trimL_head l with h | ⟨c, t, heq, hc⟩
  · rw [h]
    rfl
  · rw [heq]
    rcases trimR_of_head t hc with h2 | ⟨u, h2⟩
    · rw [h2]
      rfl
    · rw [h2, trimL_of_head _ hc, ← h2, trimR_trimR]

theorem trimL_map_lower (l : List Char) :
    trimL (l.map lowerChar) = (trimL l).map lowerChar := by
  unfold trimL
  rw [List.dropWhile_map]
  have h : (pyIsSpace ∘ lowerChar) = pyIsSpace := funext pyIsSpace_lowerChar
  rw [h]

theorem trimR_map_lower (l : List Char) :
    trimR (l.map lowerChar) = (trimR l).map lowerChar := by
  unfold trimR
  have h1 : (l.map lowerChar).reverse = l.reverse.map lowerChar := by
    simp [List.map_reverse]
  rw [h1]
  have h2 := trimL_map_lower l.reverse
  unfold trimL at h2
  rw [h2]
  simp [List.map_reverse]

theorem stripL_map_lower (l : List Char) :
    stripL (l.map lowerChar) = (stripL l).map lowerChar := by
  unfold stripL
  rw [trimL_map_lower, trimR_map_lower]

/-- String-level versions. -/
theorem pyStrip_pyStrip (s : String) : pyStrip (pyStrip s) = pyStrip s := by
  unfold pyStrip
  rw [stripL_stripL]

theorem pyStrip_pyLower (s : String) : pyStrip (pyLower s) = pyLower (pyStrip s) := by
  unfold pyStrip pyLower
  simp only
  rw [stripL_map_lower]

theorem pyLower_pyLower (s : String) : pyLower (pyLower s) = pyLower s := by
  unfold pyLower
  simp only
  rw [List.map_map]
  have h : lowerChar ∘ lowerChar = lowerChar := funext lowerChar_lowerChar
  rw [h]

theorem pyLower_eq_empty_iff (s : String) : pyLower s = "" ↔ s = "" := by
  unfold pyLower
  constructor
  · intro h
    have hd : s.data.map lowerChar = "".data := congrArg String.data h
    simp at hd
    cases s with
    | mk d => simp_all
  · intro h
    rw [h]
    rfl

theorem pyStrip_eq_self_of_map_lower {s w : String}
    (hw : w = pyLower (pyStrip s)) : pyStrip w = w := by
  rw [hw, pyStrip_pyLower, pyStrip_pyStrip]

/-! ## Key-map and dict lemmas -/

theorem kset_of_not_mem (m : List (AKey × Rec × Rec)) (k : AKey) (v : Rec × Rec)
    (h : keyMem m k = false) : kset m k v = m ++ [(k, v)] := by
  induction m with
  | nil => rfl
  | cons kv rest ih =>
    unfold keyMem at h
    simp only [List.any_cons, Bool.or_eq_false_iff, decide_eq_false_iff_not] at h
    unfold kset
    rw [if_neg (by simpa using h.1)]
    rw [ih]
    · rfl
    · unfold keyMem
      simpa using h.2

theorem keyMem_append (m1 m2 : List (AKey × Rec × Rec)) (k : AKey) :
    keyMem (m1 ++ m2) k = (keyMem m1 k || keyMem m2 k) := by
  unfold keyMem
  exact List.any_append

/-- With pairwise-distinct keys, the last-wins key map degenerates to a
plain association list in input order. -/
theorem buildKeyMap_aux (pairs : List (Rec × Rec)) (acc : List (AKey × Rec × Rec))
    (hnd : (pairs.map fun p => getAssignmentKey p.1).Nodup)
    (hdisj : ∀ p ∈ pairs, keyMem acc (getAssignmentKey p.1) = false) :
    pairs.foldl (fun m p => kset m (getAssignmentKey p.1) p) acc =
      acc ++ pairs.map (fun p => (getAssignmentKey p.1, p)) := by
  induction pairs generalizing acc with
  | nil => simp
  | cons p rest ih =>
    rw [List.foldl_cons, kset_of_not_mem _ _ _ (hdisj p (List.mem_cons_self p rest))]
    rw [List.map_cons, List.nodup_cons] at hnd
    rw [ih (acc ++ [(getAssignmentKey p.1, p)]) hnd.2]
    · simp
    · intro q hq
      rw [keyMem_append]
      rw [hdisj q (List.mem_cons_of_mem p hq)]
      have hne : getAssignmentKey p.1 ≠ getAssignmentKey q.1 := by
        intro heq
        exact hnd.1 (heq ▸ List.mem_map_of_mem (fun p => getAssignmentKey p.1) hq)
      unfold keyMem
      simp [hne]

theorem zip_map_self (new : List Rec) :
    (new.map cleanAssignment).zip new =
      new.map (fun r => (cleanAssignment r, r)) := by
  induction new with
  | nil => rfl
  | cons r rest ih => simp [ih]

/-- `d[k]` is unaffected by assignment to a different key. -/
theorem dlookup_dset_ne (d : Rec) (k0 k v : String) (h : k ≠ k0) :
    dlookup (dset d k0 v) k = dlookup d k := by
  induction d with
  | nil =>
    unfold dset dlookup
    have hb : (k0 == k) = false := beq_eq_false_iff_ne.mpr (Ne.symm h)
    simp [List.find?, hb]
  | cons kv rest ih =>
    unfold dset
    by_cases h0 : kv.1 == k0
    · rw [if_pos h0]
      unfold dlookup
      have hk0 : kv.1 = k0 := eq_of_beq h0
      have : (k0 == k) = false := beq_eq_false_iff_ne.mpr (Ne.symm h)
      simp only [List.find?, this, ← hk0]
      rw [show (kv.1 == k) = false from beq_eq_false_iff_ne.mpr (hk0 ▸ Ne.symm h)]
    · rw [if_neg (by simpa using h0)]
      unfold dlookup at ih ⊢
      by_cases hk : kv.1 == k
      · simp only [List.find?, hk]
      · simp only [List.find?, hk]
        exact ih

/-! ## Concrete records used in the claim theorems -/

def recA : Rec :=
  [("customer", "Test School"), ("date_time", "2/6/2025 10:15 AM"),
   ("language", "French"), ("service_type", "In-person Interpretation"),
   ("info", "Test info"), ("comments", "Test comments")]

/-- `recA` with only the `info` text changed. -/
def recAInfo : Rec :=
  [("customer", "Test School"), ("date_time", "2/6/2025 10:15 AM"),
   ("language", "French"), ("service_type", "In-person Interpretation"),
   ("info", "Different test info"), ("comments", "Test comments")]

/-- A record with a missing, unextractable `date_time` and three other
violations (unknown service type, language typo, test customer). -/
def recBad : Rec :=
  [("customer", "test company"), ("language", "Spanishh"),
   ("service_type", "magic"), ("info", "hello"), ("comments", "none")]

/-- Empty `date_time`; the free text yields an extraction with a trailing
space (`\s*` before the optional AM/PM is inside the capture group). -/
def recTrail : Rec :=
  [("date_time", ""), ("info", "on 1/2/2025 10:15 in room 5")]

/-! ## Claim theorems -/

/-- C1: false on the code.  `get_assignment_key` keys on all six main
fields: these two records agree on the normalized 4-tuple
`(customer, date_time, language, service_type)` and differ only in `info`,
yet their identity keys differ. -/
theorem c1_key_uses_info_and_comments :
    specIdentityKey recA = specIdentityKey recAInfo ∧
    getAssignmentKey recA ≠ getAssignmentKey recAInfo := by
  constructor
  · decide
  · decide

/-- C2: false on the code.  With `recA` stored, resubmitting it with only
`info` changed makes `compare_assignments` return the record as newly
added (its 6-field key is new), not an empty `newlyAdded` list. -/
theorem c2_info_change_classified_new :
    compareNewAssignments [recA] [recAInfo] = [recAInfo] := by
  decide

/-- C3: false on the code.  `'2025-01-25 19:30:00'` is parseable by the
source's own format list (second pattern) and would canonicalize to
`'01/25/2025 07:30 PM'`, but `sanitize_assignment` leaves a non-empty
`date_time` untouched because the reparse block is nested inside the
empty-value branch. -/
theorem c3_parseable_date_left_raw :
    tryFormats "2025-01-25 19:30:00" = "01/25/2025 07:30 PM" ∧
    sanitizeAssignment [("date_time", "2025-01-25 19:30:00")] =
      [("date_time", "2025-01-25 19:30:00")] := by
  constructor
  · decide
  · decide

/-- C4 counterexample: an internal run of two spaces in a field value
survives `sanitize_assignment` unchanged, while the collapse the claim
describes (performed only by comparison-time `normalize_value`) would give
`"a b"`. -/
theorem c4_whitespace_not_collapsed :
    sanitizeAssignment [("customer", "a  b")] = [("customer", "a  b")] ∧
    collapseWs "a  b" = "a b" := by
  constructor
  · decide
  · decide

/-- C5 counterexample: `validate_assignment` rewrites the input's
`service_type` in place, so the record after the call differs from the
input. -/
theorem c5_input_mutated :
    (validateAssignment
      [("date_time", "2/6/2025 10:15 AM"), ("service_type", "Video")]).2 ≠
      [("date_time", "2/6/2025 10:15 AM"), ("service_type", "Video")] := by
  decide

/-- C6 counterexample: on a record whose `date_time` is missing and not
extractable, `validate_assignment` returns early with two `date_time`
findings only, omitting the customer, language and service-type findings
that the individual checks produce on the same record. -/
theorem c6_early_return_drops_findings :
    (validateAssignment recBad).1.length = 2 ∧
    ((validateAssignment recBad).1.all fun e => e.field == "date_time") = true ∧
    customerFindings recBad ≠ [] ∧
    languageFindings recBad ≠ [] ∧
    (serviceStep recBad).1 ≠ [] := by
  refine ⟨?_, ?_, ?_, ?_, ?_⟩ <;> decide

/-- C7 counterexample: two current records sharing an identity key collapse
last-wins against an empty store, so the first of them is not reported as
newly added. -/
theorem c7_duplicate_keys_collapse :
    compareNewAssignments [] [[("customer", "A")], [("customer", "a")]] =
      [[("customer", "a")]] ∧
    [("customer", "A")] ∉
      compareNewAssignments [] [[("customer", "A")], [("customer", "a")]] := by
  constructor
  · decide
  · decide

/-- C8 counterexample: with an empty `date_time`, extraction from `info`
captures `"1/2/2025 10:15 "` (trailing space), no format parses it, and the
second sanitization strips that space — so normalization is not
idempotent. -/
theorem c8_extraction_breaks_idempotence :
    sanitizeAssignment (sanitizeAssignment recTrail) ≠
      sanitizeAssignment recTrail := by
  decide

/-- C9: after every save, each surviving history entry has a truthy
timestamp strictly greater (Python string comparison on ISO timestamps)
than the seven-day cutoff computed at save time: pruning is by timestamp
comparison, never by count. -/
theorem c9_save_prunes_history (st : Storage) (now sevenDaysAgo : String)
    (assignments : List Rec) :
    ∀ e ∈ (saveAssignments st now sevenDaysAgo assignments).history,
      ∃ t, e.timestamp = some t ∧ t ≠ "" ∧ pyStrLt sevenDaysAgo t = true := by
  intro e he
  simp only [saveAssignments] at he
  unfold cleanOldHistory at he
  rw [List.mem_filter] at he
  obtain ⟨-, hcond⟩ := he
  cases ht : e.timestamp with
  | none =>
    rw [ht] at hcond
    exact absurd hcond (by simp)
  | some t =>
    rw [ht] at hcond
    simp only [Bool.and_eq_true, decide_eq_true_eq] at hcond
    exact ⟨t, rfl, hcond.1, hcond.2⟩

/-- Witness for C9 at a concrete store: the pushed previous snapshot
survives pruning and satisfies the bound. -/
theorem c9_save_prunes_history_witness :
    (⟨some "2025-01-10T00:00:00", [recA]⟩ : HistEntry) ∈
      (saveAssignments ⟨some "2025-01-10T00:00:00", [recA], []⟩
        "2025-01-12T09:00:00" "2025-01-05T09:00:00" []).history ∧
    ∃ t, (⟨some "2025-01-10T00:00:00", [recA]⟩ : HistEntry).timestamp = some t ∧
      t ≠ "" ∧ pyStrLt "2025-01-05T09:00:00" t = true :=
  ⟨by decide,
   c9_save_prunes_history ⟨some "2025-01-10T00:00:00", [recA], []⟩
     "2025-01-12T09:00:00" "2025-01-05T09:00:00" [] _ (by decide)⟩

/-- C7 (amended): `load` returns the default empty snapshot whenever no
parsed state is available (missing file or parse failure; the `try/except`
guarantees no exception escapes, which the model renders by totality), and
comparing a current set whose identity keys are pairwise distinct against
that default reports every current record as newly added (records sharing
an identity key collapse last-wins, per the counterexample). -/
theorem c7_default_load_and_distinct_new :
    readStorage none = defaultStorage ∧
    ∀ (new : List Rec),
      (new.map fun r => getAssignmentKey (cleanAssignment r)).Nodup →
      ∀ r ∈ new, r ∈ compareNewAssignments [] new := by
  refine ⟨rfl, ?_⟩
  intro new hnd r hr
  have hnil : compareNewAssignments [] new =
      (buildKeyMap ((new.map cleanAssignment).zip new)).filterMap
        (fun kv => some kv.2.2) := rfl
  rw [hnil, zip_map_self]
  unfold buildKeyMap
  rw [buildKeyMap_aux _ []
      (by simpa [List.map_map, Function.comp] using hnd)
      (fun q hq => rfl),
    List.nil_append, List.mem_filterMap]
  exact ⟨(getAssignmentKey (cleanAssignment r), (cleanAssignment r, r)),
    List.mem_map_of_mem _ (List.mem_map_of_mem _ hr), rfl⟩

/-- Witness for C7: a single record against the default store is reported
as newly added. -/
theorem c7_default_load_and_distinct_new_witness :
    readStorage none = defaultStorage ∧
    recA ∈ compareNewAssignments [] [recA] :=
  ⟨c7_default_load_and_distinct_new.1,
   c7_default_load_and_distinct_new.2 [recA] (by decide) recA (by decide)⟩

theorem serviceStep_frame (a : Rec) (k : String) (hk : k ≠ "service_type") :
    dlookup (serviceStep a).2 k = dlookup a k := by
  simp only [serviceStep]
  split
  · split
    · exact dlookup_dset_ne a "service_type" k _ hk
    · rfl
  · rfl

/-- C5 (amended): `validate_assignment` rewrites at most the `date_time`
and `service_type` entries of its input (extraction writes `date_time`,
normalization writes `service_type`); every other key's value is exactly
preserved. -/
theorem c5_frame_other_fields (a : Rec) (k : String)
    (h1 : k ≠ "date_time") (h2 : k ≠ "service_type") :
    dlookup (validateAssignment a).2 k = dlookup a k := by
  simp only [validateAssignment]
  split
  · exact serviceStep_frame a k h2
  · split
    · rfl
    · rw [serviceStep_frame _ k h2]
      split
      · rw [dlookup_dset_ne _ "date_time" k _ h1,
          dlookup_dset_ne _ "date_time" k _ h1]
      · rw [dlookup_dset_ne _ "date_time" k _ h1]

/-- Witness for C5: the `customer` entry is untouched by validation. -/
theorem c5_frame_other_fields_witness :
    dlookup (validateAssignment recA).2 "customer" = dlookup recA "customer" :=
  c5_frame_other_fields recA "customer" (by decide) (by decide)

/-- C6 (amended): when `date_time` is present, every remaining check is
evaluated with no short-circuit and the findings are exactly the
concatenation of the independent checks (presence; service-type
normalization/allow-list; emptiness; language typo; customer format) — a
present `date_time`'s format is however never re-validated, and when
`date_time` is missing and unextractable the function returns early (see
the counterexample). -/
theorem c6_all_checks_when_date_present (a : Rec)
    (h : dmem a "date_time" = true) :
    (validateAssignment a).1 = independentFindings a := by
  unfold validateAssignment independentFindings
  rw [if_pos h]

/-- Witness for C6 on a record with `date_time` present. -/
theorem c6_all_checks_when_date_present_witness :
    dmem recA "date_time" = true ∧
    (validateAssignment recA).1 = independentFindings recA :=
  ⟨by decide, c6_all_checks_when_date_present recA (by decide)⟩

/-! ## Lemmas about `sanitize_assignment` -/

theorem isEmptyAlias_pyLower (x : String) :
    isEmptyAlias (pyLower x) = isEmptyAlias x := by
  unfold isEmptyAlias
  rw [pyLower_pyLower]
  by_cases hx : x = ""
  · subst hx
    rfl
  · rw [decide_eq_false (fun h => hx ((pyLower_eq_empty_iff x).mp h)),
      decide_eq_false hx]

theorem serviceNormalize_eq (v : String) :
    serviceNormalize v =
      match serviceTypeMapping.find? (fun p => hasSub (pyLower (pyStrip v)) p.1) with
      | some p => p.2
      | none => pyLower (pyStrip v) := rfl

theorem serviceNormalize_stripped (v : String) :
    pyStrip (serviceNormalize v) = serviceNormalize v := by
  cases h : serviceTypeMapping.find? (fun p => hasSub (pyLower (pyStrip v)) p.1) with
  | none =>
    rw [serviceNormalize_eq, h]
    show pyStrip (pyLower (pyStrip v)) = pyLower (pyStrip v)
    rw [pyStrip_pyLower, pyStrip_pyStrip]
  | some p =>
    rw [serviceNormalize_eq, h]
    show pyStrip p.2 = p.2
    have hp := List.mem_of_find?_eq_some h
    simp only [serviceTypeMapping, List.mem_cons, List.not_mem_nil, or_false] at hp
    rcases hp with rfl | rfl | rfl | rfl | rfl <;> decide

theorem sanitizeValue_stripped (a : Rec) (k v : String) (hk : k ≠ "date_time") :
    pyStrip (sanitizeValue a k v) = sanitizeValue a k v := by
  simp only [sanitizeValue]
  have hv4 : pyStrip (if isEmptyAlias (pyStrip v) then emptyBranch a k
      else pyStrip v) = (if isEmptyAlias (pyStrip v) then emptyBranch a k
      else pyStrip v) := by
    split
    · unfold emptyBranch
      rw [if_neg hk]
      decide
    · exact pyStrip_pyStrip v
  split
  · exact pyStrip_pyStrip _
  · split
    · exact serviceNormalize_stripped _
    · split
      · rw [pyStrip_pyLower, hv4]
      · split
        · exact hv4
        · rw [pyStrip_pyLower, hv4]

/-- C4 (amended): `sanitize_assignment` strips leading and trailing
whitespace — every value it emits for a key other than `date_time` is
`strip`-fixed — but it does not collapse internal whitespace runs; that
collapse happens only in the comparison-time `normalize_value`
(counterexample `c4_whitespace_not_collapsed`).  A `date_time` value
recovered by free-text extraction can retain whitespace captured by the
regex, hence the exclusion. -/
theorem c4_strip_no_collapse (r : Rec) (k v : String)
    (hmem : (k, v) ∈ sanitizeAssignment r) (hk : k ≠ "date_time") :
    pyStrip v = v := by
  unfold sanitizeAssignment at hmem
  rw [List.mem_filterMap] at hmem
  obtain ⟨kv0, hkv0, hproc⟩ := hmem
  unfold procItem at hproc
  split at hproc
  · exact absurd hproc (by simp)
  · rw [Option.some.injEq, Prod.mk.injEq] at hproc
    obtain ⟨hk0, hv0⟩ := hproc
    subst hk0
    subst hv0
    exact sanitizeValue_stripped r kv0.1 kv0.2 hk

/-- Witness for C4: the sanitized `customer` value of a padded input is
emitted with its ends stripped, and is `strip`-fixed. -/
theorem c4_strip_no_collapse_witness :
    ("customer", "a  b") ∈ sanitizeAssignment [("customer", " A  b ")] ∧
    pyStrip "a  b" = "a  b" :=
  ⟨by decide,
   c4_strip_no_collapse [("customer", " A  b ")] "customer" "a  b"
     (by decide) (by decide)⟩

/-! ## Stability of `sanitize_assignment` (toward idempotence) -/

theorem emptyBranch_ne_dt {k : String} (hk : k ≠ "date_time") (c : Rec) :
    emptyBranch c k = "N/A" := by
  unfold emptyBranch
  rw [if_neg hk]

theorem lower_contains_false {k : String} (h1 : k ≠ "customer")
    (h2 : k ≠ "service_type") : lowercaseFieldsSan.contains k = false := by
  show (k == "customer" || (k == "service_type" || false)) = false
  rw [beq_eq_false_iff_ne.mpr h1, beq_eq_false_iff_ne.mpr h2]
  rfl

theorem cs_contains_false {k : String} (h1 : k ≠ "info") (h2 : k ≠ "comments")
    (h3 : k ≠ "language") : caseSensitiveFieldsSan.contains k = false := by
  show (k == "info" || (k == "comments" || (k == "language" || false))) = false
  rw [beq_eq_false_iff_ne.mpr h1, beq_eq_false_iff_ne.mpr h2,
    beq_eq_false_iff_ne.mpr h3]
  rfl

/-- For a key whose case policy is plain lower-casing (neither `language`
nor `service_type` nor a case-preserved field), `sanitizeValue` is
lower-casing applied to the empty-alias step. -/
theorem sanitizeValue_plain (b : Rec) (k w : String)
    (hlang : k ≠ "language") (hsvc : k ≠ "service_type")
    (hcs : caseSensitiveFieldsSan.contains k = false) :
    sanitizeValue b k w =
      pyLower (if isEmptyAlias (pyStrip w) = true then emptyBranch b k
        else pyStrip w) := by
  simp only [sanitizeValue]
  rw [if_neg hlang, if_neg hsvc]
  by_cases hl : lowercaseFieldsSan.contains k = true
  · rw [if_pos hl]
  · rw [if_neg hl, if_neg (show ¬caseSensitiveFieldsSan.contains k = true by
      rw [hcs]; decide)]

/-- For a case-preserved key other than `language` (`info`, `comments`). -/
theorem sanitizeValue_cs (b : Rec) (k w : String)
    (hlang : k ≠ "language") (hsvc : k ≠ "service_type")
    (hlow : lowercaseFieldsSan.contains k = false)
    (hcs : caseSensitiveFieldsSan.contains k = true) :
    sanitizeValue b k w =
      (if isEmptyAlias (pyStrip w) = true then emptyBranch b k
        else pyStrip w) := by
  simp only [sanitizeValue]
  rw [if_neg hlang, if_neg hsvc,
    if_neg (show ¬lowercaseFieldsSan.contains k = true by rw [hlow]; decide),
    if_pos hcs]

theorem serviceNormalize_second (v1 : String) (h1 : pyStrip v1 = v1) :
    serviceNormalize (pyLower (serviceNormalize (pyLower v1))) =
      serviceNormalize (pyLower v1) := by
  have hu : pyLower (pyStrip (pyLower v1)) = pyLower v1 := by
    rw [pyStrip_pyLower, h1, pyLower_pyLower]
  rw [serviceNormalize_eq (pyLower v1), hu]
  cases h : serviceTypeMapping.find? (fun p => hasSub (pyLower v1) p.1) with
  | some p =>
    show serviceNormalize (pyLower p.2) = p.2
    have hp := List.mem_of_find?_eq_some h
    simp only [serviceTypeMapping, List.mem_cons, List.not_mem_nil, or_false] at hp
    rcases hp with rfl | rfl | rfl | rfl | rfl <;> decide
  | none =>
    show serviceNormalize (pyLower (pyLower v1)) = pyLower v1
    rw [pyLower_pyLower, serviceNormalize_eq (pyLower v1), hu, h]

theorem serviceNormalize_alias_false (v : String)
    (hal : isEmptyAlias (pyStrip v) = false) :
    isEmptyAlias (serviceNormalize (pyLower (pyStrip v))) = false := by
  have hu : pyLower (pyStrip (pyLower (pyStrip v))) = pyLower (pyStrip v) := by
    rw [pyStrip_pyLower, pyStrip_pyStrip, pyLower_pyLower]
  rw [serviceNormalize_eq (pyLower (pyStrip v)), hu]
  cases h : serviceTypeMapping.find? (fun p => hasSub (pyLower (pyStrip v)) p.1) with
  | some p =>
    show isEmptyAlias p.2 = false
    have hp := List.mem_of_find?_eq_some h
    simp only [serviceTypeMapping, List.mem_cons, List.not_mem_nil, or_false] at hp
    rcases hp with rfl | rfl | rfl | rfl | rfl <;> decide
  | none =>
    show isEmptyAlias (pyLower (pyStrip v)) = false
    rw [isEmptyAlias_pyLower, hal]

/-- Per-value stability of the Normalizer: a second pass (over any record)
leaves a first-pass value unchanged, provided a `date_time` value was not
blank or an empty alias (in which case the nested recovery block runs and
can produce an unstripped extraction; see the counterexample). -/
theorem sanitizeValue_stable (a b : Rec) (k v : String)
    (hdt : k = "date_time" → isEmptyAlias (pyStrip v) = false) :
    sanitizeValue b k (sanitizeValue a k v) = sanitizeValue a k v := by
  by_cases hklang : k = "language"
  · subst hklang
    have hL : ∀ (c : Rec) (x : String), sanitizeValue c "language" x =
        pyStrip (if isEmptyAlias (pyStrip x) = true then emptyBranch c "language"
          else pyStrip x) := fun c x => rfl
    by_cases hal : isEmptyAlias (pyStrip v) = true
    · have hw : sanitizeValue a "language" v = "N/A" := by
        rw [hL a, if_pos hal]
        rfl
      rw [hw]
      rfl
    · have hw : sanitizeValue a "language" v = pyStrip v := by
        rw [hL a, if_neg hal, pyStrip_pyStrip]
      rw [hw, hL b, pyStrip_pyStrip, if_neg hal, pyStrip_pyStrip]
  by_cases hksvc : k = "service_type"
  · subst hksvc
    have hS : ∀ (c : Rec) (x : String), sanitizeValue c "service_type" x =
        serviceNormalize (pyLower
          (if isEmptyAlias (pyStrip x) = true then emptyBranch c "service_type"
            else pyStrip x)) := fun c x => rfl
    by_cases hal : isEmptyAlias (pyStrip v) = true
    · have hw : sanitizeValue a "service_type" v = "n/a" := by
        rw [hS a, if_pos hal]
        rfl
      rw [hw]
      rfl
    · have hal' : isEmptyAlias (pyStrip v) = false := by
        simpa using hal
      have hw : sanitizeValue a "service_type" v =
          serviceNormalize (pyLower (pyStrip v)) := by
        rw [hS a, if_neg hal]
      rw [hw, hS b, serviceNormalize_stripped,
        if_neg (by simp [serviceNormalize_alias_false v hal'])]
      exact serviceNormalize_second (pyStrip v) (pyStrip_pyStrip v)
  by_cases hkdt : k = "date_time"
  · subst hkdt
    have hal : isEmptyAlias (pyStrip v) = false := hdt rfl
    have hP : ∀ (c : Rec) (x : String), sanitizeValue c "date_time" x =
        pyLower (if isEmptyAlias (pyStrip x) = true then emptyBranch c "date_time"
          else pyStrip x) :=
      fun c x => sanitizeValue_plain c "date_time" x (by decide) (by decide)
        (by decide)
    rw [hP a v, if_neg (by simp [hal])]
    rw [hP b (pyLower (pyStrip v)), pyStrip_pyLower, pyStrip_pyStrip,
      if_neg (by simp [isEmptyAlias_pyLower, hal]), pyLower_pyLower]
  -- remaining keys: info/comments keep case, everything else is lowered
  by_cases hkcs : caseSensitiveFieldsSan.contains k = true
  · have hklow : lowercaseFieldsSan.contains k = false := by
      apply lower_contains_false
      · intro hk
        subst hk
        exact absurd hkcs (by decide)
      · exact hksvc
    have hC : ∀ (c : Rec) (x : String), sanitizeValue c k x =
        (if isEmptyAlias (pyStrip x) = true then emptyBranch c k
          else pyStrip x) :=
      fun c x => sanitizeValue_cs c k x hklang hksvc hklow hkcs
    by_cases hal : isEmptyAlias (pyStrip v) = true
    · have hw : sanitizeValue a k v = "N/A" := by
        rw [hC a v, if_pos hal, emptyBranch_ne_dt hkdt]
      rw [hw, hC b "N/A", if_pos (by decide), emptyBranch_ne_dt hkdt]
    · have hw : sanitizeValue a k v = pyStrip v := by
        rw [hC a v, if_neg hal]
      rw [hw, hC b (pyStrip v), pyStrip_pyStrip, if_neg hal]
  · have hP : ∀ (c : Rec) (x : String), sanitizeValue c k x =
        pyLower (if isEmptyAlias (pyStrip x) = true then emptyBranch c k
          else pyStrip x) :=
      fun c x => sanitizeValue_plain c k x hklang hksvc (by simpa using hkcs)
    by_cases hal : isEmptyAlias (pyStrip v) = true
    · have hw : sanitizeValue a k v = "n/a" := by
        rw [hP a v, if_pos hal, emptyBranch_ne_dt hkdt]
        decide
      rw [hw, hP b "n/a", if_pos (by decide), emptyBranch_ne_dt hkdt]
      decide
    · have hal' : isEmptyAlias (pyStrip v) = false := by
        simpa using hal
      have hw : sanitizeValue a k v = pyLower (pyStrip v) := by
        rw [hP a v, if_neg hal]
      rw [hw, hP b (pyLower (pyStrip v)), pyStrip_pyLower, pyStrip_pyStrip,
        if_neg (by simp [isEmptyAlias_pyLower, hal']), pyLower_pyLower]

theorem filterMap_id_of_forall {l : List (String × String)}
    {f : String × String → Option (String × String)}
    (h : ∀ x ∈ l, f x = some x) : l.filterMap f = l := by
  induction l with
  | nil => rfl
  | cons x rest ih =>
    rw [List.filterMap_cons_some (h x (List.mem_cons_self x rest)),
      ih fun y hy => h y (List.mem_cons_of_mem x hy)]

/-- A second `procItem` pass (over any record) fixes a first-pass item,
under the `date_time` proviso. -/
theorem procItem_stable (r s : Rec) (k0 v0 : String)
    (hh : k0 ≠ "header") (ht : k0 ≠ "timestamp")
    (hdt : k0 = "date_time" → isEmptyAlias (pyStrip v0) = false) :
    procItem s (k0, sanitizeValue r k0 v0) =
      some (k0, sanitizeValue r k0 v0) := by
  unfold procItem
  rw [if_neg (by simp [hh, ht])]
  exact congrArg (fun w => some (k0, w)) (sanitizeValue_stable r s k0 v0 hdt)

/-- C8 (amended): `sanitize_assignment` is idempotent on every record whose
`date_time` values (if any) are, after stripping, neither blank nor an
empty alias — i.e. whenever the nested date-recovery block does not run.
With an empty/alias `date_time` the block can store an extraction with
trailing whitespace that only the second pass strips (counterexample
`c8_extraction_breaks_idempotence`). -/
theorem c8_idempotent_nonempty_date (r : Rec)
    (h : ∀ v, ("date_time", v) ∈ r → isEmptyAlias (pyStrip v) = false) :
    sanitizeAssignment (sanitizeAssignment r) = sanitizeAssignment r := by
  unfold sanitizeAssignment
  apply filterMap_id_of_forall
  intro x hx
  rw [List.mem_filterMap] at hx
  obtain ⟨kv0, hkv0, hproc⟩ := hx
  obtain ⟨k0, v0⟩ := kv0
  unfold procItem at hproc
  split at hproc
  · exact absurd hproc (by simp)
  · rw [Option.some.injEq] at hproc
    subst hproc
    rename_i hns
    simp only [decide_eq_true_eq, Bool.or_eq_true, not_or] at hns
    exact procItem_stable r _ k0 v0 hns.1 hns.2
      (fun hdt => h v0 (hdt ▸ hkv0))

/-- Witness for C8: a record whose `date_time` is a real date is a fixed
point of a second sanitization. -/
theorem c8_idempotent_nonempty_date_witness :
    sanitizeAssignment (sanitizeAssignment recA) = sanitizeAssignment recA :=
  c8_idempotent_nonempty_date recA (by
    intro v hv
    simp only [recA, List.mem_cons, List.not_mem_nil, or_false,
      Prod.mk.injEq] at hv
    rcases hv with ⟨h1, h2⟩ | ⟨h1, h2⟩ | ⟨h1, h2⟩ | ⟨h1, h2⟩ | ⟨h1, h2⟩ | ⟨h1, h2⟩ <;>
      (subst h2; decide))

end Bridgescrap
